import Mathlib

set_option maxRecDepth 4000

/-!
Verification development for the reconciler repository: a shallow embedding of
the reconciliation dispatch engine described in the specification, together
with a faithful embedding of the `rma` integration action
(`src/pkg/reconciler/instances/rma/integration_action.go`) and of the status
helpers found in the integration test (`src/unnamed/part_000`).

The dispatch core itself (request validator, dependency resolver, worker pool,
heartbeat sender, callback dispatcher) is not part of the provided sources;
those components are modelled from the specification text, as indicated by the
doc comments starting with `Modelled from the spec:`.
-/

namespace Reconciler

/-- Lifecycle status enumeration of the status model (spec section 3 and the
constants used in `src/unnamed/part_000`). -/
inductive Status where
  | notStarted
  | running
  | failed
  | error
  | success
  deriving DecidableEq, Repr

/-- From `src/unnamed/part_000`, `finalStatus`:
`return status == reconciler.Error || status == reconciler.Success`. -/
def finalStatus (status : Status) : Bool :=
  status == Status.error || status == Status.success

/-- From spec section 3: `Failed` and `Error` are terminal-failure variants and
`Success` is terminal-success; `NotStarted` and `Running` are not terminal. -/
def isTerminalStatus (status : Status) : Bool :=
  status == Status.success || status == Status.error || status == Status.failed

/-- Value stored in a free-form configuration map (Go `map[string]interface{}`;
the spec section 3 allows string/bool/int/float scalars, a non-string variant
is all the claims need beyond strings). -/
inductive GoVal where
  | str (s : String)
  | boolV (b : Bool)
  | intV (n : Int)
  deriving DecidableEq, Repr

/-- A free-form configuration map, as an association list (Go map). -/
abbrev Config := List (String × GoVal)

/-- Modelled from the spec: the Reconciliation Request data model
(spec section 3), mirroring the `reconciler.Reconciliation` fields used by
the test cases in `src/unnamed/part_000`. -/
structure Reconciliation where
  component : String
  namespc : String
  version : String
  profile : String
  kubeconfig : String
  componentsReady : List String
  configuration : Config
  installCRD : Bool
  correlationID : String
  callbackURL : String
  deriving DecidableEq, Repr

/-- Modelled from the spec: the request validator invariant (spec sections 3
and 4.1): component, namespace, version, and (kubeconfig OR profile) must be
non-empty for the request to be admitted. -/
def validRequest (r : Reconciliation) : Bool :=
  (r.component != "") && (r.namespc != "") && (r.version != "") &&
    ((r.kubeconfig != "") || (r.profile != ""))

/-- Modelled from the spec: the dependency resolver (spec section 4.2):
set difference required minus ready, preserving the configuration order of
the required list. -/
def resolveDependencies (required ready : List String) : List String :=
  required.filter (fun d => !(ready.contains d))

/-- Modelled from the spec: the entry point response taxonomy
(spec section 4.8): 200 OK, 400 BadRequest, 412 PreconditionRequired with the
dependency payload. -/
inductive HTTPResponse where
  | ok
  | badRequest (errormsg : String)
  | preconditionRequired (required missing : List String)
  deriving DecidableEq, Repr

/-- Modelled from the spec: the HTTP entry point (spec sections 2.8, 4.1, 4.2,
4.8): it first validates the mandatory scalar fields (BadRequest on
violation), then invokes the dependency resolver (PreconditionRequired with
the required and missing lists on a dependency gap), and otherwise admits the
request to the worker pool. The second component is true iff a job was
admitted. -/
def handleReconciliation (required : List String) (r : Reconciliation) :
    HTTPResponse × Bool :=
  if validRequest r then
    let missing := resolveDependencies required r.componentsReady
    if missing.isEmpty then (HTTPResponse.ok, true)
    else (HTTPResponse.preconditionRequired required missing, false)
  else (HTTPResponse.badRequest ("mandatory fields missing"), false)

/-- Modelled from the spec: the error attached to a callback message
(spec sections 4.3 and 7): a timeout-kind error on the deadline path, an
action error, or an explicit domain failure. -/
inductive JobError where
  | timeoutError
  | actionError (msg : String)
  | domainFailure (msg : String)
  deriving DecidableEq, Repr

/-- Modelled from the spec: the callback message wire payload
(spec section 3): status plus error-or-nil. -/
structure CallbackMessage where
  status : Status
  errorField : Option JobError
  deriving DecidableEq, Repr

/-- Modelled from the spec: the result of running the action for one job
(spec sections 4.3 and 4.4): the action either completes before the worker
deadline (successfully, with an explicit domain failure, or with an
unexpected error), or the worker-timeout context expires first. -/
inductive ActionOutcome where
  | completedOk
  | completedFailed (msg : String)
  | completedError (msg : String)
  | deadlineExceeded
  deriving DecidableEq, Repr

/-- Modelled from the spec: the terminal callback message computed by the
worker from the action outcome (spec section 4.3 steps 4 and 5): Success with
no error, Failed or Error with the action error attached, or — on the
deadline path — Error with a timeout-kind error. -/
def terminalMessage : ActionOutcome → CallbackMessage
  | ActionOutcome.completedOk => { status := Status.success, errorField := none }
  | ActionOutcome.completedFailed msg =>
      { status := Status.failed, errorField := some (JobError.domainFailure msg) }
  | ActionOutcome.completedError msg =>
      { status := Status.error, errorField := some (JobError.actionError msg) }
  | ActionOutcome.deadlineExceeded =>
      { status := Status.error, errorField := some JobError.timeoutError }

/-- Modelled from the spec: the sequence of callback messages published for
one admitted job (spec sections 4.3 and 4.6): the initial Running message,
one Running heartbeat per tick observed while the job executes, and the
single terminal message computed from the action outcome (also on the
deadline path). -/
def workerCallbacks (outcome : ActionOutcome) (heartbeatTicks : Nat) :
    List CallbackMessage :=
  { status := Status.running, errorField := none } ::
    (List.replicate heartbeatTicks { status := Status.running, errorField := none } ++
      [terminalMessage outcome])

/-- Modelled from the spec: callbacks observable for one request at the entry
point: an admitted job publishes its worker callbacks, a rejected request
publishes nothing (spec sections 4.1 and 4.3). -/
def entryPointCallbacks (required : List String) (r : Reconciliation)
    (outcome : ActionOutcome) (heartbeatTicks : Nat) : List CallbackMessage :=
  if (handleReconciliation required r).2 then workerCallbacks outcome heartbeatTicks
  else []

/-- Modelled from the spec: the runtime state of one job slot as seen by the
worker pool (spec section 3): pending (admitted, not yet claimed), running,
or done with a terminal status. -/
inductive JobState where
  | pending
  | running
  | done (terminal : Status)
  deriving DecidableEq, Repr

/-- True iff the job slot is currently in the Running state. -/
def jobRunning : JobState → Bool
  | JobState.running => true
  | _ => false

/-- Number of jobs simultaneously in the Running state. -/
def runningCount (jobs : List JobState) : Nat :=
  jobs.countP jobRunning

/-- Modelled from the spec: the worker pool transition relation
(spec sections 4.3 and 5): a job may be admitted (appended as pending) at any
time; a pending job may start running only when fewer than `capacity` jobs
are running; a running job may finish with a terminal status. -/
inductive PoolStep (capacity : Nat) : List JobState → List JobState → Prop
  | admitJob (jobs : List JobState) :
      PoolStep capacity jobs (jobs ++ [JobState.pending])
  | start (l1 l2 : List JobState)
      (hc : runningCount (l1 ++ JobState.pending :: l2) < capacity) :
      PoolStep capacity (l1 ++ JobState.pending :: l2) (l1 ++ JobState.running :: l2)
  | finish (l1 l2 : List JobState) (t : Status) (ht : isTerminalStatus t = true) :
      PoolStep capacity (l1 ++ JobState.running :: l2) (l1 ++ JobState.done t :: l2)

/-- Modelled from the spec: a pool state reachable from the empty pool by any
interleaving of admissions, starts and completions. -/
def PoolReachable (capacity : Nat) (jobs : List JobState) : Prop :=
  Relation.ReflTransGen (PoolStep capacity) [] jobs

/-- Modelled from the spec: the callback retry configuration
(spec sections 4.7 and 6); `src/unnamed/part_000` configures RetryDelay = 2s
and MaxRetries = 3. Times are in abstract delay units. -/
structure RetryConfig where
  maxRetries : Nat
  retryDelay : Nat
  deriving DecidableEq, Repr

/-- Modelled from the spec: the HTTP delivery loop of the callback dispatcher
(spec section 4.7). `sink k` tells whether attempt number `k` succeeds
(2xx) — failure covers both network errors and non-2xx responses. Arguments:
current attempt index, current time, retries left. Returns the times of the
attempts that were made and whether the message was delivered. -/
def deliverAttempts (sink : Nat → Bool) (delay : Nat) :
    Nat → Nat → Nat → List Nat × Bool
  | k, t, 0 => ([t], sink k)
  | k, t, retriesLeft + 1 =>
      if sink k then ([t], true)
      else
        let rest := deliverAttempts sink delay (k + 1) (t + delay) retriesLeft
        (t :: rest.1, rest.2)

/-- Modelled from the spec: a job record as seen by the callback dispatcher:
the current status and terminal error of the job (spec section 3). -/
structure JobRecord where
  status : Status
  errorField : Option JobError
  deriving DecidableEq, Repr

/-- Modelled from the spec: dispatching one callback message over HTTP
(spec section 4.7): attempt delivery, retrying up to `maxRetries` times with
`retryDelay` between attempts; the job record is returned untouched — failed
delivery is logged and surfaced but never alters the job status or terminal
state. Returns (job, attempt times, delivered flag). -/
def dispatchHTTP (cfg : RetryConfig) (sink : Nat → Bool) (job : JobRecord) :
    JobRecord × List Nat × Bool :=
  (job, deliverAttempts sink cfg.retryDelay 0 0 cfg.maxRetries)

/-! Embedding of `src/pkg/reconciler/instances/rma/integration_action.go`.
External collaborators (helm client, Kubernetes client, HTTP transport,
crypto randomness) are injected as oracles in `ActionEnv`, matching the
`IntegrationClient` / `http.Client` boundaries of the Go code. -/

/-- Constant `RmiChartURLConfig` from integration_action.go. -/
def RmiChartURLConfig : String := "rmi.chartUrl"

/-- Constant `RmiNamespaceConfig` from integration_action.go. -/
def RmiNamespaceConfig : String := "rmi.namespace"

/-- Constant `RmiVmalertGroupsNum` from integration_action.go. -/
def RmiVmalertGroupsNum : String := "rmi.vmalertGroupsNum"

/-- Constant `DefaultVMAlertGroupsNum` from integration_action.go. -/
def DefaultVMAlertGroupsNum : Int := 1

/-- Helm `release.StatusDeployed`. -/
def statusDeployed : String := "deployed"

/-- From integration_action.go, `getConfigString`: returns the stored value
if the key maps to a string, and the empty string when the key is absent or
the value is of another type. -/
def getConfigString (config : Config) (key : String) : String :=
  match List.lookup key config with
  | some (GoVal.str s) => s
  | _ => ""

/-- Go map assignment `config[key] = value` on the association-list model:
replaces the value of an existing key and appends a new key otherwise. -/
def setConfigValue : Config → String → GoVal → Config
  | [], key, v => [(key, v)]
  | (k, w) :: rest, key, v =>
      if k = key then (key, v) :: rest else (k, w) :: setConfigValue rest key v

/-- From integration_action.go, `setAuthCredentialOverrides`: writes the
`vmuser.username` and `vmuser.password` keys into the task configuration. -/
def setAuthCredentialOverrides (config : Config) (username password : String) :
    Config :=
  setConfigValue (setConfigValue config ("vmuser.username") (GoVal.str username))
    ("vmuser.password") (GoVal.str password)

/-- Helm chart metadata (`chart.Metadata`), the version field only. -/
structure ChartMetadata where
  version : String
  deriving DecidableEq, Repr

/-- Helm chart pointer held by a release (`release.Chart`); `none` models a
nil pointer. -/
structure HelmChart where
  metadata : Option ChartMetadata
  deriving DecidableEq, Repr

/-- Helm release info (`release.Info`), the status field only (helm encodes
the status as a string; `statusDeployed` is `release.StatusDeployed`). -/
structure ReleaseInfo where
  status : String
  deriving DecidableEq, Repr

/-- Helm `release.Release`: revision number, chart pointer, info pointer. -/
structure Release where
  version : Int
  chart : Option HelmChart
  info : Option ReleaseInfo
  deriving DecidableEq, Repr

/-- From integration_action.go, `findLatestRevision`: folds over the releases
keeping the one with the largest revision, starting from revision -1 and a
nil release. -/
def findLatestRevision (releases : List Release) : Option Release :=
  (releases.foldl
    (fun (acc : Option Release × Int) r =>
      if r.version > acc.2 then (some r, r.version) else acc)
    (none, -1)).1

/-- Character class `[a-zA-Z0-9-.]` of the chart version regular expression
`rmi-([a-zA-Z0-9-.]+)\.tgz$` in `NewIntegrationAction`. -/
def rmiVersionChar (c : Char) : Bool :=
  c.isAlpha || c.isDigit || c == '-' || c == '.'

/-- Attempts to match `rmi-([a-zA-Z0-9-.]+)\.tgz$` at the head of the list:
the text must start with `rmi-` and the remainder must consist of a
non-empty capture of class characters followed by the final `.tgz`.
Because the pattern is anchored at the end of the string, the capture at a
given position is uniquely the remainder without its last four characters. -/
def chartVerAt : List Char → Option (List Char)
  | 'r' :: 'm' :: 'i' :: '-' :: rest =>
      let ver := rest.take (rest.length - 4)
      let tail4 := rest.drop (rest.length - 4)
      if tail4 = ['.', 't', 'g', 'z'] ∧ ver ≠ [] ∧ ver.all rmiVersionChar then
        some ver
      else none
  | _ => none

/-- Leftmost match of the chart version pattern (Go regexp returns the
leftmost position at which the whole pattern matches). -/
def chartVerSearch : List Char → Option (List Char)
  | [] => none
  | c :: cs =>
      match chartVerAt (c :: cs) with
      | some v => some v
      | none => chartVerSearch cs

/-- From integration_action.go, `getChartVersionFromURL`: the first capture
group of `rmi-([a-zA-Z0-9-.]+)\.tgz$` applied to the chart URL, or the empty
string when the pattern does not match. -/
def getChartVersionFromURL (chartURL : String) : String :=
  match chartVerSearch chartURL.toList with
  | some v => String.mk v
  | none => ""

/-- The release chart version as read in `Run`: `helmRelease.Chart.Metadata.Version`
guarded by the nil checks `helmRelease.Chart != nil && helmRelease.Chart.Metadata != nil`,
with the empty string as default. -/
def releaseVersionOf (rel : Release) : String :=
  match rel.chart with
  | some ch =>
      match ch.metadata with
      | some md => md.version
      | none => ""
  | none => ""

/-- The `skipHelmUpgrade` switch of `Run` (reconcile branch with an existing
release): skip stays false when either version is undetermined; when the
versions are equal the code dereferences `helmRelease.Info` (`none` models
the nil-pointer panic) and skips iff the release status is deployed;
otherwise an upgrade is started. -/
def skipUpgradeDecision (chartURL : String) (rel : Release) : Option Bool :=
  let upgradeVersion := getChartVersionFromURL chartURL
  let releaseVersion := releaseVersionOf rel
  if upgradeVersion = "" ∨ releaseVersion = "" then some false
  else if upgradeVersion = releaseVersion then
    match rel.info with
    | none => none
    | some i => some (i.status == statusDeployed)
  else some false

/-- Observable helm / Kubernetes / network operations performed by the
action, in invocation order. -/
inductive Effect where
  | helmConfigGet
  | helmHistory
  | deleteAvsBridge
  | httpFetch (url : String)
  | secretGet
  | helmInstall
  | helmUpgrade
  | helmUninstall
  deriving DecidableEq, Repr

/-- Outcome of `histClient.Run`: a release list (err == nil),
`driver.ErrReleaseNotFound`, or any other error. -/
inductive HistoryOutcome where
  | ok (releases : List Release)
  | releaseNotFound
  | failure (e : String)
  deriving DecidableEq, Repr

/-- Errors of `fetchChart`: transport/read failure (request creation,
`http.Client.Do`, or body read), a non-200 status, or `loader.LoadArchive`
failure. -/
inductive FetchError where
  | transport (e : String)
  | badStatus (code : Nat)
  | loadFailed (e : String)
  deriving DecidableEq, Repr

/-- A Kubernetes secret as read by `fetchPassword`: `none` data models a nil
`secret.Data` map. -/
structure KubeSecret where
  data : Option (List (String × String))
  deriving DecidableEq, Repr

/-- Task metadata (`context.Task.Metadata`) fields used by the action. -/
structure TaskMetadata where
  instanceID : String
  globalAccountID : String
  subAccountID : String
  shootName : String
  servicePlanName : String
  region : String
  deriving DecidableEq, Repr

/-- The `model.OperationType` values restricted to the cases the switch in `Run`
distinguishes. -/
inductive OperationType where
  | reconcile
  | delete
  | other
  deriving DecidableEq, Repr

/-- The reconciliation task (`context.Task`) as used by the action; the
mutable configuration map is passed separately. -/
structure RmaTask where
  typ : OperationType
  metadata : TaskMetadata
  deriving DecidableEq, Repr

/-- Oracles for the external collaborators of `IntegrationAction`: the helm
client, the helm storage driver, the HTTP transport (network error or
(status code, body bytes)), the chart loader, the Kubernetes clients and the
crypto randomness. `helmActionConfig = ok none` models
`HelmActionConfiguration` returning a nil configuration; `getSecret` merges
the clientset construction and the secret lookup (both surface as errors of
`fetchPassword`). -/
structure ActionEnv where
  helmActionConfig : Except String (Option Unit)
  history : HistoryOutcome
  httpGet : String → Except String (Nat × List Nat)
  loadArchive : List Nat → Except String Unit
  getSecret : Except String KubeSecret
  genPassword : Except String String
  helmInstall : Except String Unit
  helmUpgrade : Except String Unit
  helmUninstall : Except String Unit
  host : String

/-- The distinct error returns of `Run` and its helpers, one constructor per
`return err` site. -/
inductive RunError where
  | missingConfig (key : String)
  | helmConfigFailed (e : String)
  | helmConfigNil
  | historyFailed (e : String)
  | fetchChartFailed (url : String) (e : FetchError)
  | passwordGenFailed (e : String)
  | fetchPasswordFailed (e : String)
  | installFailed (e : String)
  | upgradeFailed (e : String)
  | uninstallFailed (e : String)
  deriving DecidableEq, Repr

/-- Result of `Run`: nil, a non-nil error, or a runtime panic
(nil-pointer dereference or `rand.Intn` with a non-positive bound). -/
inductive RunOutcome where
  | ok
  | err (e : RunError)
  | panicked
  deriving DecidableEq, Repr

/-- Full result of one `Run` invocation: outcome, the chart-archive cache
(`IntegrationAction.archives`, keyed by chart URL), the task configuration
map after any mutation, and the trace of external operations. -/
structure RunResult where
  outcome : RunOutcome
  archives : List (String × List Nat)
  config : Config
  effects : List Effect
  deriving DecidableEq, Repr

/-- From integration_action.go, `fetchChart` (under the single cache mutex):
a cached archive is reused without touching the network; otherwise the chart
is downloaded, the body is read, a non-200 status is an error, and only on a
200 response is the body stored in the cache (before `loader.LoadArchive`
runs on it). Returns the updated cache, the recorded effects, and the load
result. -/
def fetchChart (env : ActionEnv) (archives : List (String × List Nat))
    (chartURL : String) :
    List (String × List Nat) × List Effect × Except FetchError Unit :=
  match List.lookup chartURL archives with
  | some archive =>
      (archives, [],
        match env.loadArchive archive with
        | Except.error e => Except.error (FetchError.loadFailed e)
        | Except.ok u => Except.ok u)
  | none =>
      match env.httpGet chartURL with
      | Except.error e =>
          (archives, [Effect.httpFetch chartURL],
            Except.error (FetchError.transport e))
      | Except.ok (code, body) =>
          if code = 200 then
            ((chartURL, body) :: archives, [Effect.httpFetch chartURL],
              match env.loadArchive body with
              | Except.error e => Except.error (FetchError.loadFailed e)
              | Except.ok u => Except.ok u)
          else
            (archives, [Effect.httpFetch chartURL],
              Except.error (FetchError.badStatus code))

/-- From integration_action.go, `fetchPassword`: reads the
`vmuser-rmi-<release>` secret; nil data and a missing or empty password are
errors. -/
def fetchPassword (env : ActionEnv) : Except String String :=
  match env.getSecret with
  | Except.error e => Except.error e
  | Except.ok secret =>
      match secret.data with
      | none => Except.error ("secret data is empty")
      | some d =>
          match List.lookup ("password") d with
          | none => Except.error ("missing/empty auth credentials")
          | some p =>
              if p = "" then Except.error ("missing/empty auth credentials")
              else Except.ok p

/-- Signed 64-bit upper bound used by `strconv.Atoi`. -/
def int64Max : Int := 9223372036854775807

/-- Signed 64-bit lower bound used by `strconv.Atoi`. -/
def int64Min : Int := -9223372036854775808

/-- Decimal digit-run value: `some` iff the list is a non-empty run of ASCII
digits. -/
def digitsVal (l : List Char) : Option Nat :=
  if l ≠ [] ∧ l.all Char.isDigit then
    some (l.foldl (fun acc c => acc * 10 + (c.toNat - 48)) 0)
  else none

/-- Model of Go `strconv.Atoi`: optional sign, non-empty digit run, error on
any other shape and on values outside the signed 64-bit range. -/
def atoi (s : String) : Option Int :=
  let signedVal : Option Int :=
    match s.toList with
    | '+' :: rest => (digitsVal rest).map (fun n => (n : Int))
    | '-' :: rest => (digitsVal rest).map (fun n => -(n : Int))
    | l => (digitsVal l).map (fun n => (n : Int))
  match signedVal with
  | none => none
  | some v => if int64Min ≤ v ∧ v ≤ int64Max then some v else none

/-- Modelled collaborator: deterministic stand-in for the first eight bytes
(little endian) of `sha256.Sum256(id)`, which seed the PRNG in
`generateVmalertGroup`. The claims depend only on the digest being a
deterministic function of the instance id, not on its values. -/
def sha256seed (id : String) : Nat :=
  id.toList.foldl (fun acc c => (acc * 131 + c.toNat) % 18446744073709551616) 7

/-- Modelled collaborator: contract of `math/rand` `Intn` right after
`Seed(seed)`: deterministic in the seed, panics (`none`) for a non-positive
bound, and otherwise yields a value in `[0, n)`. -/
def mrandIntn (seed : Nat) (n : Int) : Option Nat :=
  if n ≤ 0 then none else some (seed % n.toNat)

/-- The effective group count of `generateVmalertGroup`: the configured
value parsed by `strconv.Atoi`, falling back to `DefaultVMAlertGroupsNum`
when parsing errors. -/
def vmalertGroups (num : String) : Int :=
  match atoi num with
  | some g => g
  | none => DefaultVMAlertGroupsNum

/-- From integration_action.go, `generateVmalertGroup`: parse the configured
group count (falling back to `DefaultVMAlertGroupsNum` when `strconv.Atoi`
errors), seed the PRNG from the sha256 digest of the instance id, and draw
`Intn(groups)`; `none` models the `Intn` panic on a non-positive count. -/
def generateVmalertGroup (id num : String) : Option Int :=
  match mrandIntn (sha256seed id) (vmalertGroups num) with
  | none => none
  | some r => some ((r : Nat) : Int)

/-- Model of `url.Parse(host).Hostname()` for the `scheme://host[:port]/...`
shapes produced by `KubeClient.GetHost`: the authority part without port;
scheme-less strings parse with an empty host. -/
def hostnameOf (host : String) : String :=
  match host.splitOn ("://") with
  | _ :: rest :: _ =>
      (rest.takeWhile (fun c => c != '/')).takeWhile (fun c => c != ':')
  | _ => ""

/-- From integration_action.go, `getDomain`: the hostname with a leading
`api.` trimmed. -/
def getDomain (host : String) : String :=
  let hostname := hostnameOf host
  if hostname.startsWith ("api.") then hostname.drop 4 else hostname

/-- The override map built by `generateOverrideMap`, flattened. -/
structure OverrideMap where
  runtimeInstanceID : String
  runtimeGlobalAccountID : String
  runtimeSubAccountID : String
  runtimeShootName : String
  runtimePlanName : String
  runtimeRegion : String
  runtimeDNSDomain : String
  authUsername : String
  authPassword : String
  vmalertGroup : Int
  deriving DecidableEq, Repr

/-- From integration_action.go, `generateOverrideMap`: runtime metadata, the
domain derived from the cluster host, the auth credentials, and the vmalert
group; `none` propagates the `generateVmalertGroup` panic. -/
def generateOverrideMap (env : ActionEnv) (metadata : TaskMetadata)
    (username password groupsNum : String) : Option OverrideMap :=
  match generateVmalertGroup metadata.instanceID groupsNum with
  | none => none
  | some g =>
      some
        { runtimeInstanceID := metadata.instanceID
          runtimeGlobalAccountID := metadata.globalAccountID
          runtimeSubAccountID := metadata.subAccountID
          runtimeShootName := metadata.shootName
          runtimePlanName := metadata.servicePlanName
          runtimeRegion := metadata.region
          runtimeDNSDomain := getDomain env.host
          authUsername := username
          authPassword := password
          vmalertGroup := g }

/-- From integration_action.go, `install`: fetch the chart, generate a fresh
password, build the overrides (a panic propagates), run helm install, and on
success write the auth credentials into the task configuration. -/
def installRma (env : ActionEnv) (task : RmaTask)
    (archives : List (String × List Nat)) (config : Config)
    (chartURL groupsNum : String) : RunResult :=
  let fc := fetchChart env archives chartURL
  match fc.2.2 with
  | Except.error e =>
      { outcome := RunOutcome.err (RunError.fetchChartFailed chartURL e),
        archives := fc.1, config := config, effects := fc.2.1 }
  | Except.ok _ =>
      match env.genPassword with
      | Except.error e =>
          { outcome := RunOutcome.err (RunError.passwordGenFailed e),
            archives := fc.1, config := config, effects := fc.2.1 }
      | Except.ok password =>
          match generateOverrideMap env task.metadata task.metadata.instanceID
              password groupsNum with
          | none =>
              { outcome := RunOutcome.panicked, archives := fc.1,
                config := config, effects := fc.2.1 }
          | some _ =>
              match env.helmInstall with
              | Except.error e =>
                  { outcome := RunOutcome.err (RunError.installFailed e),
                    archives := fc.1, config := config,
                    effects := fc.2.1 ++ [Effect.helmInstall] }
              | Except.ok _ =>
                  { outcome := RunOutcome.ok, archives := fc.1,
                    config := setAuthCredentialOverrides config
                      task.metadata.instanceID password,
                    effects := fc.2.1 ++ [Effect.helmInstall] }

/-- From integration_action.go, `upgrade`: fetch the stored password, write
the auth credentials into the task configuration, and — unless
`skipHelmUpgrade` — fetch the chart, build the overrides (a panic
propagates) and run helm upgrade. -/
def upgradeRma (env : ActionEnv) (task : RmaTask)
    (archives : List (String × List Nat)) (config : Config)
    (chartURL groupsNum : String) (skipHelmUpgrade : Bool) : RunResult :=
  match fetchPassword env with
  | Except.error e =>
      { outcome := RunOutcome.err (RunError.fetchPasswordFailed e),
        archives := archives, config := config, effects := [Effect.secretGet] }
  | Except.ok password =>
      let config2 := setAuthCredentialOverrides config task.metadata.instanceID
        password
      if skipHelmUpgrade then
        { outcome := RunOutcome.ok, archives := archives, config := config2,
          effects := [Effect.secretGet] }
      else
        let fc := fetchChart env archives chartURL
        match fc.2.2 with
        | Except.error e =>
            { outcome := RunOutcome.err (RunError.fetchChartFailed chartURL e),
              archives := fc.1, config := config2,
              effects := Effect.secretGet :: fc.2.1 }
        | Except.ok _ =>
            match generateOverrideMap env task.metadata task.metadata.instanceID
                password groupsNum with
            | none =>
                { outcome := RunOutcome.panicked, archives := fc.1,
                  config := config2, effects := Effect.secretGet :: fc.2.1 }
            | some _ =>
                match env.helmUpgrade with
                | Except.error e =>
                    { outcome := RunOutcome.err (RunError.upgradeFailed e),
                      archives := fc.1, config := config2,
                      effects := Effect.secretGet :: fc.2.1 ++ [Effect.helmUpgrade] }
                | Except.ok _ =>
                    { outcome := RunOutcome.ok, archives := fc.1,
                      config := config2,
                      effects := Effect.secretGet :: fc.2.1 ++ [Effect.helmUpgrade] }

/-- From integration_action.go, `delete`: run helm uninstall. -/
def deleteRma (env : ActionEnv) (archives : List (String × List Nat))
    (config : Config) : RunResult :=
  match env.helmUninstall with
  | Except.error e =>
      { outcome := RunOutcome.err (RunError.uninstallFailed e),
        archives := archives, config := config,
        effects := [Effect.helmUninstall] }
  | Except.ok _ =>
      { outcome := RunOutcome.ok, archives := archives, config := config,
        effects := [Effect.helmUninstall] }

/-- Prefixes already-recorded effects onto the effects of a helper result. -/
def prependEffects (es : List Effect) (r : RunResult) : RunResult :=
  { r with effects := es ++ r.effects }

/-- From integration_action.go, `IntegrationAction.Run`: check the mandatory
`rmi.chartUrl` and `rmi.namespace` configuration entries (error before any
helm or Kubernetes operation), obtain the helm action configuration, query
the release history, and dispatch on the operation type. On reconcile the
avs-bridge deployment is deleted best-effort, then either `install` (release
not found) or — after the `skipHelmUpgrade` decision, whose nil-pointer
dereferences on a missing release or nil `Info` model panics — `upgrade`.
On delete, `delete` runs only when the history query returned releases. -/
def runIntegrationAction (env : ActionEnv) (task : RmaTask)
    (archives : List (String × List Nat)) (config : Config) : RunResult :=
  if getConfigString config RmiChartURLConfig = "" then
    { outcome := RunOutcome.err (RunError.missingConfig RmiChartURLConfig),
      archives := archives, config := config, effects := [] }
  else if getConfigString config RmiNamespaceConfig = "" then
    { outcome := RunOutcome.err (RunError.missingConfig RmiNamespaceConfig),
      archives := archives, config := config, effects := [] }
  else
    let chartURL := getConfigString config RmiChartURLConfig
    let groupsNum := getConfigString config RmiVmalertGroupsNum
    match env.helmActionConfig with
    | Except.error e =>
        { outcome := RunOutcome.err (RunError.helmConfigFailed e),
          archives := archives, config := config,
          effects := [Effect.helmConfigGet] }
    | Except.ok none =>
        { outcome := RunOutcome.err RunError.helmConfigNil,
          archives := archives, config := config,
          effects := [Effect.helmConfigGet] }
    | Except.ok (some _) =>
        match env.history with
        | HistoryOutcome.failure e =>
            { outcome := RunOutcome.err (RunError.historyFailed e),
              archives := archives, config := config,
              effects := [Effect.helmConfigGet, Effect.helmHistory] }
        | HistoryOutcome.releaseNotFound =>
            match task.typ with
            | OperationType.reconcile =>
                prependEffects
                  [Effect.helmConfigGet, Effect.helmHistory, Effect.deleteAvsBridge]
                  (installRma env task archives config chartURL groupsNum)
            | OperationType.delete =>
                { outcome := RunOutcome.ok, archives := archives,
                  config := config,
                  effects := [Effect.helmConfigGet, Effect.helmHistory] }
            | OperationType.other =>
                { outcome := RunOutcome.ok, archives := archives,
                  config := config,
                  effects := [Effect.helmConfigGet, Effect.helmHistory] }
        | HistoryOutcome.ok releases =>
            match task.typ with
            | OperationType.reconcile =>
                match findLatestRevision releases with
                | none =>
                    { outcome := RunOutcome.panicked, archives := archives,
                      config := config,
                      effects := [Effect.helmConfigGet, Effect.helmHistory,
                        Effect.deleteAvsBridge] }
                | some rel =>
                    match skipUpgradeDecision chartURL rel with
                    | none =>
                        { outcome := RunOutcome.panicked, archives := archives,
                          config := config,
                          effects := [Effect.helmConfigGet, Effect.helmHistory,
                            Effect.deleteAvsBridge] }
                    | some skip =>
                        prependEffects
                          [Effect.helmConfigGet, Effect.helmHistory,
                            Effect.deleteAvsBridge]
                          (upgradeRma env task archives config chartURL groupsNum
                            skip)
            | OperationType.delete =>
                prependEffects [Effect.helmConfigGet, Effect.helmHistory]
                  (deleteRma env archives config)
            | OperationType.other =>
                { outcome := RunOutcome.ok, archives := archives,
                  config := config,
                  effects := [Effect.helmConfigGet, Effect.helmHistory] }

/-! Concrete fixtures used to exercise the definitions (mirroring the values
of the integration test where applicable). -/

/-- The request of the "Missing dependencies" test case in
`src/unnamed/part_000`. -/
def sampleRequest : Reconciliation :=
  { component := "component-1"
    namespc := "inttest-comprecon"
    version := "1.2.3"
    profile := "unittest"
    kubeconfig := "xyz"
    componentsReady := ["abc", "def"]
    configuration := []
    installCRD := false
    correlationID := "test-correlation-id"
    callbackURL := "https://httpbin.org/post" }

/-- A request with an empty component name and no ready components. -/
def sampleInvalidRequest : Reconciliation :=
  { sampleRequest with component := "", componentsReady := [] }

/-- The request of the "Invalid request: mandatory fields missing" test case
in `src/unnamed/part_000`: kubeconfig and profile both empty. -/
def sampleMissingFieldsRequest : Reconciliation :=
  { sampleRequest with
      kubeconfig := ""
      profile := ""
      componentsReady := ["abc", "xyz"] }

/-- A chart URL whose `rmi-<version>.tgz` suffix carries version 1.2.3. -/
def sampleChartURL : String := "https://charts.example.com/rmi-1.2.3.tgz"

/-- A deployed helm release of chart version 1.2.3 at revision 1. -/
def sampleRelease : Release :=
  { version := 1
    chart := some { metadata := some { version := "1.2.3" } }
    info := some { status := statusDeployed } }

/-- Sample task metadata. -/
def sampleMetadata : TaskMetadata :=
  { instanceID := "instance-a"
    globalAccountID := "global-account"
    subAccountID := "sub-account"
    shootName := "shoot-a"
    servicePlanName := "plan"
    region := "eu" }

/-- A reconcile-type task. -/
def sampleTask : RmaTask :=
  { typ := OperationType.reconcile, metadata := sampleMetadata }

/-- A configuration carrying the two mandatory rmi entries. -/
def sampleConfig : Config :=
  [(RmiChartURLConfig, GoVal.str sampleChartURL),
    (RmiNamespaceConfig, GoVal.str ("rma-system"))]

/-- A configuration whose chart-URL entry is present but not a string. -/
def sampleConfigNonString : Config :=
  [(RmiChartURLConfig, GoVal.boolV true),
    (RmiNamespaceConfig, GoVal.str ("rma-system"))]

/-- An environment in which every collaborator succeeds and the stored
release of `sampleRelease` exists. -/
def sampleEnv : ActionEnv :=
  { helmActionConfig := Except.ok (some ())
    history := HistoryOutcome.ok [sampleRelease]
    httpGet := fun _ => Except.ok (200, [1, 2, 3])
    loadArchive := fun _ => Except.ok ()
    getSecret := Except.ok { data := some [(("password"), ("pw-123"))] }
    genPassword := Except.ok ("fresh-pw")
    helmInstall := Except.ok ()
    helmUpgrade := Except.ok ()
    helmUninstall := Except.ok ()
    host := "https://api.cluster.example.com" }

/-! Theorems. -/

/-- Membership in the resolver result: exactly the required components that
are not ready, in required order. -/
theorem mem_resolveDependencies (required ready : List String) (x : String) :
    x ∈ resolveDependencies required ready ↔ x ∈ required ∧ x ∉ ready := by
  simp [resolveDependencies, List.mem_filter]

/-- The resolver result is a sublist of the required list, hence preserves
the configuration order. -/
theorem resolveDependencies_sublist (required ready : List String) :
    (resolveDependencies required ready).Sublist required :=
  List.filter_sublist required

/-- A missing dependency makes the resolver result non-empty. -/
theorem resolveDependencies_ne_nil (required ready : List String)
    (h : ¬ required ⊆ ready) : resolveDependencies required ready ≠ [] := by
  intro hnil
  apply h
  intro a ha
  by_contra hna
  have hmem : a ∈ resolveDependencies required ready :=
    (mem_resolveDependencies required ready a).mpr ⟨ha, hna⟩
  rw [hnil] at hmem
  exact absurd hmem (List.not_mem_nil a)

/-- Claim C2: for every status in the enumeration, `finalStatus` is true iff
the status is Error or Success; in particular `finalStatus Failed` is false
although the status model designates Failed as a terminal-failure variant. -/
theorem finalStatus_iff_error_or_success :
    (∀ s : Status, finalStatus s = true ↔ s = Status.error ∨ s = Status.success) ∧
      finalStatus Status.failed = false ∧ isTerminalStatus Status.failed = true := by
  refine ⟨fun s => ?_, by decide, by decide⟩
  cases s <;> simp [finalStatus]

/-- Claim C1 (amended): for every configured required list and every request
that passes field validation whose ready components do not cover the
required list, the entry point rejects with PreconditionRequired carrying
the full required list and the missing sublist (set difference in required
order), without admitting a job. -/
theorem dependency_gap_precondition_required (required : List String)
    (r : Reconciliation) (hvalid : validRequest r = true)
    (hgap : ¬ required ⊆ r.componentsReady) :
    handleReconciliation required r =
        (HTTPResponse.preconditionRequired required
          (resolveDependencies required r.componentsReady), false) ∧
      (resolveDependencies required r.componentsReady).Sublist required ∧
      ∀ x, x ∈ resolveDependencies required r.componentsReady ↔
        x ∈ required ∧ x ∉ r.componentsReady := by
  have hne := resolveDependencies_ne_nil required r.componentsReady hgap
  refine ⟨?_, resolveDependencies_sublist _ _,
    fun x => mem_resolveDependencies _ _ x⟩
  simp only [handleReconciliation, hvalid, if_true]
  simp [List.isEmpty_iff, hne]

/-- Witness for C1: the configured dependencies of `src/unnamed/part_000`
(`abc`, `xyz`) against the "Missing dependencies" request (ready `abc`,
`def`): PreconditionRequired with required `[abc, xyz]` and missing
exactly `[xyz]`. -/
theorem dependency_gap_precondition_required_witness :
    handleReconciliation ["abc", "xyz"] sampleRequest =
      (HTTPResponse.preconditionRequired ["abc", "xyz"] ["xyz"], false) :=
  (dependency_gap_precondition_required ["abc", "xyz"] sampleRequest
    (by decide) (by decide)).1

/-- Counterexample for C1 as stated: a request with an empty component name
and no ready components is answered BadRequest by the entry point (field
validation precedes dependency resolution, spec sections 2.8 and 4.1), not
PreconditionRequired with the required list and missing = required. -/
theorem dependency_gap_counterexample :
    (handleReconciliation ["abc", "xyz"] sampleInvalidRequest).1 ≠
      HTTPResponse.preconditionRequired ["abc", "xyz"] ["abc", "xyz"] := by
  decide

/-- Claim C3: a request with an empty component, namespace or version, or
with both kubeconfig and profile empty, is answered BadRequest, no job is
admitted, and no callback is published for it. -/
theorem invalid_request_bad_request_no_job (required : List String)
    (r : Reconciliation)
    (h : r.component = "" ∨ r.namespc = "" ∨ r.version = "" ∨
      (r.kubeconfig = "" ∧ r.profile = "")) :
    handleReconciliation required r =
        (HTTPResponse.badRequest ("mandatory fields missing"), false) ∧
      ∀ outcome heartbeatTicks,
        entryPointCallbacks required r outcome heartbeatTicks = [] := by
  have hv : validRequest r = false := by
    rcases h with h | h | h | ⟨h1, h2⟩ <;> simp [validRequest, *]
  constructor
  · simp [handleReconciliation, hv]
  · intro outcome heartbeatTicks
    simp [entryPointCallbacks, handleReconciliation, hv]

/-- Witness for C3: the "Invalid request: mandatory fields missing" test
case of `src/unnamed/part_000` (empty kubeconfig and profile). -/
theorem invalid_request_bad_request_no_job_witness :
    handleReconciliation ["abc", "xyz"] sampleMissingFieldsRequest =
      (HTTPResponse.badRequest ("mandatory fields missing"), false) :=
  (invalid_request_bad_request_no_job ["abc", "xyz"] sampleMissingFieldsRequest
    (Or.inr (Or.inr (Or.inr ⟨rfl, rfl⟩)))).1

/-- Counting with a predicate that rejects the replicated element yields
zero. -/
theorem countP_replicate_of_neg {α : Type} (p : α → Bool) (a : α)
    (h : p a = false) (n : Nat) : (List.replicate n a).countP p = 0 := by
  induction n with
  | zero => simp
  | succ n ih => simp [List.replicate_succ, List.countP_cons, h, ih]

/-- The terminal message always carries a terminal status. -/
theorem isTerminal_terminalMessage (outcome : ActionOutcome) :
    isTerminalStatus (terminalMessage outcome).status = true := by
  cases outcome <;> rfl

/-- Claim C4: every admitted job publishes exactly one terminal callback —
never zero, never more than one — it is the last message, and on the
deadline path the job is forced to Error with a timeout-kind error and the
terminal callback is still attempted. -/
theorem exactly_one_terminal_callback (outcome : ActionOutcome)
    (heartbeatTicks : Nat) :
    (workerCallbacks outcome heartbeatTicks).countP
        (fun m => isTerminalStatus m.status) = 1 ∧
      (workerCallbacks outcome heartbeatTicks).getLast? =
        some (terminalMessage outcome) ∧
      (outcome = ActionOutcome.deadlineExceeded →
        terminalMessage outcome =
            { status := Status.error, errorField := some JobError.timeoutError } ∧
          terminalMessage outcome ∈ workerCallbacks outcome heartbeatTicks) := by
  refine ⟨?_, ?_, ?_⟩
  · have hrep := countP_replicate_of_neg
      (fun m : CallbackMessage => isTerminalStatus m.status)
      { status := Status.running, errorField := none } rfl heartbeatTicks
    simp [workerCallbacks, List.countP_cons, List.countP_append, hrep,
      isTerminal_terminalMessage,
      show isTerminalStatus Status.running = false from rfl]
  · rw [show workerCallbacks outcome heartbeatTicks =
      ({ status := Status.running, errorField := none } ::
        List.replicate heartbeatTicks
          { status := Status.running, errorField := none }) ++
        [terminalMessage outcome] from by simp [workerCallbacks]]
    exact List.getLast?_concat _
  · intro hdl
    subst hdl
    exact ⟨rfl, by simp [workerCallbacks]⟩

/-- Witness for C4: on the deadline path with two heartbeats, exactly one
terminal callback, carrying Error with the timeout-kind error. -/
theorem exactly_one_terminal_callback_witness :
    (workerCallbacks ActionOutcome.deadlineExceeded 2).countP
        (fun m => isTerminalStatus m.status) = 1 ∧
      terminalMessage ActionOutcome.deadlineExceeded =
        { status := Status.error, errorField := some JobError.timeoutError } :=
  ⟨(exactly_one_terminal_callback ActionOutcome.deadlineExceeded 2).1,
    ((exactly_one_terminal_callback ActionOutcome.deadlineExceeded 2).2.2 rfl).1⟩

/-- A single pool step preserves the capacity bound on running jobs. -/
theorem poolStep_preserves_bound {capacity : Nat} {s t : List JobState}
    (h : PoolStep capacity s t) (hle : runningCount s ≤ capacity) :
    runningCount t ≤ capacity := by
  cases h with
  | admitJob js =>
      simpa [runningCount, List.countP_append, jobRunning] using hle
  | start l1 l2 hc =>
      simp [runningCount, List.countP_append, List.countP_cons, jobRunning] at hc ⊢
      omega
  | finish l1 l2 t ht =>
      simp [runningCount, List.countP_append, List.countP_cons, jobRunning] at hle ⊢
      omega

/-- Claim C5: in every execution of the worker pool — any interleaving of
admissions, starts and completions, in particular admitting more jobs than
the capacity — the number of jobs simultaneously in the Running state never
exceeds the pool capacity. -/
theorem running_jobs_bounded_by_capacity (capacity : Nat)
    (jobs : List JobState) (h : PoolReachable capacity jobs) :
    runningCount jobs ≤ capacity := by
  induction h with
  | refl => simp [runningCount]
  | tail hsteps hstep ih => exact poolStep_preserves_bound hstep ih

/-- Witness for C5: two jobs admitted to a pool of capacity one, the first
started: the reached state has at most one running job. -/
theorem running_jobs_bounded_by_capacity_witness :
    runningCount [JobState.running, JobState.pending] ≤ 1 :=
  running_jobs_bounded_by_capacity 1 [JobState.running, JobState.pending]
    (Relation.ReflTransGen.tail
      (Relation.ReflTransGen.tail
        (Relation.ReflTransGen.single (PoolStep.admitJob []))
        (PoolStep.admitJob [JobState.pending]))
      (PoolStep.start [] [JobState.pending] (by decide)))

/-- When every attempt fails, the delivery loop performs one attempt per
remaining retry plus the current one, spaced by the retry delay. -/
theorem deliverAttempts_all_fail (sink : Nat → Bool) (delay : Nat)
    (hfail : ∀ k, sink k = false) :
    ∀ retriesLeft k t : Nat,
      deliverAttempts sink delay k t retriesLeft =
        ((List.range (retriesLeft + 1)).map (fun i => t + i * delay), false) := by
  intro retriesLeft
  induction retriesLeft with
  | zero => intro k t; simp [deliverAttempts, hfail, List.range_succ]
  | succ r ih =>
      intro k t
      rw [deliverAttempts, hfail k]
      simp only [Bool.false_eq_true, if_false, ih (k + 1) (t + delay)]
      refine congrArg (fun l => (l, false)) ?_
      conv_rhs => rw [List.range_succ_eq_map]
      rw [List.map_cons, List.map_map, List.cons_eq_cons]
      constructor
      · simp
      · refine List.map_congr_left ?_
        intro i _
        simp only [Function.comp_apply, Nat.succ_eq_add_one]
        ring

/-- Claim C6: delivery of a callback message to an unreachable sink (every
attempt fails) is attempted exactly 1 + MaxRetries times, at times spaced by
RetryDelay, then abandoned, with the job record (status and terminal error)
left unchanged. -/
theorem callback_retry_exhaustion (cfg : RetryConfig) (sink : Nat → Bool)
    (job : JobRecord) (hfail : ∀ k, sink k = false) :
    dispatchHTTP cfg sink job =
        (job, (List.range (1 + cfg.maxRetries)).map (fun i => i * cfg.retryDelay),
          false) ∧
      ((List.range (1 + cfg.maxRetries)).map
          (fun i => i * cfg.retryDelay)).length = 1 + cfg.maxRetries ∧
      ∀ i, i < 1 + cfg.maxRetries →
        ((List.range (1 + cfg.maxRetries)).map
            (fun i => i * cfg.retryDelay)).get? i = some (i * cfg.retryDelay) := by
  refine ⟨?_, by simp, ?_⟩
  · rw [dispatchHTTP, deliverAttempts_all_fail sink cfg.retryDelay hfail
      cfg.maxRetries 0 0]
    rw [Nat.add_comm 1 cfg.maxRetries]
    simp
  · intro i hi
    rw [List.get?_eq_getElem?, List.getElem?_map, List.getElem?_range
      (by omega : i < 1 + cfg.maxRetries)]
    rfl

/-- Witness for C6: the retry configuration of `src/unnamed/part_000`
(MaxRetries 3, RetryDelay 2s) against a sink that always fails: four
attempts at times 0, 2, 4, 6, abandoned, job unchanged. -/
theorem callback_retry_exhaustion_witness :
    dispatchHTTP { maxRetries := 3, retryDelay := 2 } (fun _ => false)
        { status := Status.success, errorField := none } =
      ({ status := Status.success, errorField := none }, [0, 2, 4, 6], false) :=
  (callback_retry_exhaustion { maxRetries := 3, retryDelay := 2 }
      (fun _ => false) { status := Status.success, errorField := none }
      (fun _ => rfl)).1.trans (by decide)

/-- Counterexample for C10 as stated: for num = "0" parsing succeeds with
g = 0, and the call panics (`rand.Intn` with a non-positive bound) instead
of returning normally — consistently, the claimed range [0, 0) is empty. -/
theorem generateVmalertGroup_panics_on_zero :
    generateVmalertGroup ("instance-a") ("0") = none := by decide

/-- Claim C10 (amended): `generateVmalertGroup` is a deterministic function
of the instance id and the configured string (it is a pure function of these
in this embedding); whenever the effective group count g — num parsed as an
integer when parsing succeeds, the default 1 when it fails — is positive,
the call returns normally with a value in [0, g); when parsing succeeds
with a non-positive value the call panics. -/
theorem vmalert_group_range (id num : String) :
    (0 < vmalertGroups num →
        ∃ r : Int, generateVmalertGroup id num = some r ∧
          0 ≤ r ∧ r < vmalertGroups num) ∧
      (vmalertGroups num ≤ 0 → generateVmalertGroup id num = none) := by
  constructor
  · intro hpos
    have hnle : ¬ vmalertGroups num ≤ 0 := by omega
    refine ⟨((sha256seed id % (vmalertGroups num).toNat : Nat) : Int), ?_, ?_, ?_⟩
    · simp [generateVmalertGroup, mrandIntn, hnle]
    · exact Int.natCast_nonneg _
    · have htn : 0 < (vmalertGroups num).toNat := by omega
      have hmod : sha256seed id % (vmalertGroups num).toNat <
          (vmalertGroups num).toNat := Nat.mod_lt _ htn
      omega
  · intro hle
    simp [generateVmalertGroup, mrandIntn, hle]

/-- Witness for C10: num = "3" parses to a positive count and the draw lies
in [0, 3). -/
theorem vmalert_group_range_witness :
    (0 : Int) < vmalertGroups ("3") ∧
      ∃ r : Int, generateVmalertGroup ("instance-a") ("3") = some r ∧
        0 ≤ r ∧ r < vmalertGroups ("3") :=
  ⟨by decide, (vmalert_group_range ("instance-a") ("3")).1 (by decide)⟩

/-- Claim C8: `getConfigString` totally maps a present string value to
itself and everything else (absent key, non-string value) to the empty
string; consequently `Run` fails with a missing-required-configuration
error for `rmi.chartUrl` (or, when that one is a non-empty string, for
`rmi.namespace`) before performing any helm or Kubernetes operation —
the effect trace of the failing run is empty. -/
theorem missing_config_error_before_operations :
    (∀ (config : Config) (key s : String),
        List.lookup key config = some (GoVal.str s) →
          getConfigString config key = s) ∧
      (∀ (config : Config) (key : String),
        List.lookup key config = none → getConfigString config key = "") ∧
      (∀ (config : Config) (key : String) (v : GoVal),
        List.lookup key config = some v → (∀ s, v ≠ GoVal.str s) →
          getConfigString config key = "") ∧
      (∀ (env : ActionEnv) (task : RmaTask)
        (archives : List (String × List Nat)) (config : Config),
        getConfigString config RmiChartURLConfig = "" →
          runIntegrationAction env task archives config =
            { outcome := RunOutcome.err (RunError.missingConfig RmiChartURLConfig),
              archives := archives, config := config, effects := [] }) ∧
      (∀ (env : ActionEnv) (task : RmaTask)
        (archives : List (String × List Nat)) (config : Config),
        getConfigString config RmiChartURLConfig ≠ "" →
          getConfigString config RmiNamespaceConfig = "" →
            runIntegrationAction env task archives config =
              { outcome := RunOutcome.err (RunError.missingConfig RmiNamespaceConfig),
                archives := archives, config := config, effects := [] }) := by
  refine ⟨?_, ?_, ?_, ?_, ?_⟩
  · intro config key s h
    simp [getConfigString, h]
  · intro config key h
    simp [getConfigString, h]
  · intro config key v h hns
    cases v with
    | str s => exact absurd rfl (hns s)
    | boolV b => simp [getConfigString, h]
    | intV n => simp [getConfigString, h]
  · intro env task archives config h
    simp [runIntegrationAction, h]
  · intro env task archives config h1 h2
    simp [runIntegrationAction, h1, h2]

/-- Witness for C8: a configuration whose chart-URL entry holds a boolean:
`getConfigString` yields the empty string and `Run` fails with the
missing-configuration error for `rmi.chartUrl` without any effect. -/
theorem missing_config_error_before_operations_witness :
    getConfigString sampleConfigNonString RmiChartURLConfig = "" ∧
      runIntegrationAction sampleEnv sampleTask [] sampleConfigNonString =
        { outcome := RunOutcome.err (RunError.missingConfig RmiChartURLConfig),
          archives := [], config := sampleConfigNonString, effects := [] } := by
  have h := missing_config_error_before_operations.2.2.1 sampleConfigNonString
    RmiChartURLConfig (GoVal.boolV true) (by decide)
    (fun s hs => by cases hs)
  exact ⟨h, missing_config_error_before_operations.2.2.2.1 sampleEnv sampleTask
    [] sampleConfigNonString h⟩

/-- The function `fetchChart` either leaves the cache untouched or inserts exactly the
body of a 200 response for a previously uncached URL. -/
theorem fetchChart_archives_shape (env : ActionEnv)
    (archives : List (String × List Nat)) (url : String) :
    (fetchChart env archives url).1 = archives ∨
      ∃ body, env.httpGet url = Except.ok (200, body) ∧
        List.lookup url archives = none ∧
        (fetchChart env archives url).1 = (url, body) :: archives := by
  cases hlk : List.lookup url archives with
  | some a => left; simp [fetchChart, hlk]
  | none =>
      cases hg : env.httpGet url with
      | error e => left; simp [fetchChart, hlk, hg]
      | ok p =>
          rcases p with ⟨code, body⟩
          by_cases hc : code = 200
          · right
            subst hc
            exact ⟨body, rfl, rfl, by simp [fetchChart, hlk, hg]⟩
          · left
            simp [fetchChart, hlk, hg, hc]

/-- The function `fetchChart` never removes or replaces a cache entry. -/
theorem fetchChart_lookup_mono (env : ActionEnv)
    (archives : List (String × List Nat)) (url u : String) (v : List Nat)
    (h : List.lookup u archives = some v) :
    List.lookup u (fetchChart env archives url).1 = some v := by
  rcases fetchChart_archives_shape env archives url with heq | ⟨body, _, hnone, heq⟩
  · rw [heq]; exact h
  · rw [heq]
    have hne : (u == url) = false := by
      by_cases huu : u = url
      · subst huu
        rw [h] at hnone
        exact Option.noConfusion hnone
      · simp [huu]
    simp [List.lookup, hne]
    exact h

/-- The cache returned by `install` is the cache returned by its
`fetchChart` call. -/
theorem installRma_archives (env : ActionEnv) (task : RmaTask)
    (archives : List (String × List Nat)) (config : Config)
    (chartURL groupsNum : String) :
    (installRma env task archives config chartURL groupsNum).archives =
      (fetchChart env archives chartURL).1 := by
  unfold installRma
  dsimp only
  repeat' split
  all_goals rfl

/-- The cache returned by `upgrade` is either untouched or the cache
returned by its `fetchChart` call. -/
theorem upgradeRma_archives (env : ActionEnv) (task : RmaTask)
    (archives : List (String × List Nat)) (config : Config)
    (chartURL groupsNum : String) (skipHelmUpgrade : Bool) :
    (upgradeRma env task archives config chartURL groupsNum
          skipHelmUpgrade).archives = archives ∨
      (upgradeRma env task archives config chartURL groupsNum
          skipHelmUpgrade).archives = (fetchChart env archives chartURL).1 := by
  unfold upgradeRma
  dsimp only
  repeat' split
  all_goals first | (left; rfl) | (right; rfl)

/-- The cache returned by `delete` is untouched. -/
theorem deleteRma_archives (env : ActionEnv)
    (archives : List (String × List Nat)) (config : Config) :
    (deleteRma env archives config).archives = archives := by
  unfold deleteRma
  repeat' split
  all_goals rfl

/-- The cache returned by `Run` is either untouched or the cache returned by
the (single) `fetchChart` call of the taken branch. -/
theorem runIntegrationAction_archives (env : ActionEnv) (task : RmaTask)
    (archives : List (String × List Nat)) (config : Config) :
    (runIntegrationAction env task archives config).archives = archives ∨
      (runIntegrationAction env task archives config).archives =
        (fetchChart env archives (getConfigString config RmiChartURLConfig)).1 := by
  by_cases h1 : getConfigString config RmiChartURLConfig = ""
  · left; simp [runIntegrationAction, h1]
  · by_cases h2 : getConfigString config RmiNamespaceConfig = ""
    · left; simp [runIntegrationAction, h1, h2]
    · cases h3 : env.helmActionConfig with
      | error e => left; simp [runIntegrationAction, h1, h2, h3]
      | ok oc =>
          cases oc with
          | none => left; simp [runIntegrationAction, h1, h2, h3]
          | some u =>
              cases h4 : env.history with
              | failure e => left; simp [runIntegrationAction, h1, h2, h3, h4]
              | releaseNotFound =>
                  cases h5 : task.typ with
                  | reconcile =>
                      right
                      simp [runIntegrationAction, h1, h2, h3, h4, h5,
                        prependEffects, installRma_archives]
                  | delete => left; simp [runIntegrationAction, h1, h2, h3, h4, h5]
                  | other => left; simp [runIntegrationAction, h1, h2, h3, h4, h5]
              | ok releases =>
                  cases h5 : task.typ with
                  | reconcile =>
                      cases h6 : findLatestRevision releases with
                      | none =>
                          left
                          simp [runIntegrationAction, h1, h2, h3, h4, h5, h6]
                      | some rel =>
                          cases h7 : skipUpgradeDecision
                              (getConfigString config RmiChartURLConfig) rel with
                          | none =>
                              left
                              simp [runIntegrationAction, h1, h2, h3, h4, h5, h6, h7]
                          | some skip =>
                              rcases upgradeRma_archives env task archives config
                                  (getConfigString config RmiChartURLConfig)
                                  (getConfigString config RmiVmalertGroupsNum)
                                  skip with h8 | h8
                              · left
                                simp [runIntegrationAction, h1, h2, h3, h4, h5,
                                  h6, h7, prependEffects, h8]
                              · right
                                simp [runIntegrationAction, h1, h2, h3, h4, h5,
                                  h6, h7, prependEffects, h8]
                  | delete =>
                      left
                      simp [runIntegrationAction, h1, h2, h3, h4, h5,
                        prependEffects, deleteRma_archives]
                  | other => left; simp [runIntegrationAction, h1, h2, h3, h4, h5]

/-- Claim C7: the chart-archive cache only grows — no `Run` (hence no
`install`/`upgrade`/`delete`/`fetchChart`) ever removes or replaces an
existing entry — and `fetchChart` inserts an entry for a URL only after
receiving an HTTP 200 response for that URL. -/
theorem archive_cache_only_grows :
    (∀ (env : ActionEnv) (task : RmaTask)
        (archives : List (String × List Nat)) (config : Config)
        (u : String) (v : List Nat),
        List.lookup u archives = some v →
          List.lookup u (runIntegrationAction env task archives config).archives =
            some v) ∧
      (∀ (env : ActionEnv) (archives : List (String × List Nat)) (url : String),
        (fetchChart env archives url).1 = archives ∨
          ∃ body, env.httpGet url = Except.ok (200, body) ∧
            List.lookup url archives = none ∧
            (fetchChart env archives url).1 = (url, body) :: archives) := by
  constructor
  · intro env task archives config u v h
    rcases runIntegrationAction_archives env task archives config with heq | heq
    · rw [heq]; exact h
    · rw [heq]
      exact fetchChart_lookup_mono env archives
        (getConfigString config RmiChartURLConfig) u v h
  · exact fetchChart_archives_shape

/-- Witness for C7: a pre-populated cache entry survives a full successful
reconcile run, and `fetchChart` on an uncached URL inserts the 200 body. -/
theorem archive_cache_only_grows_witness :
    List.lookup ("cached-url")
        (runIntegrationAction sampleEnv sampleTask [(("cached-url"), [7])]
            sampleConfig).archives = some [7] ∧
      ((fetchChart sampleEnv [] sampleChartURL).1 = [] ∨
        ∃ body, sampleEnv.httpGet sampleChartURL = Except.ok (200, body) ∧
          List.lookup sampleChartURL ([] : List (String × List Nat)) = none ∧
          (fetchChart sampleEnv [] sampleChartURL).1 = (sampleChartURL, body) :: []) :=
  ⟨archive_cache_only_grows.1 sampleEnv sampleTask [(("cached-url"), [7])]
      sampleConfig ("cached-url") [7] (by decide),
    archive_cache_only_grows.2 sampleEnv [] sampleChartURL⟩

/-- Looking up the key just written by `setConfigValue` yields the written
value. -/
theorem lookup_setConfigValue_self :
    ∀ (config : Config) (key : String) (v : GoVal),
      List.lookup key (setConfigValue config key v) = some v
  | [], key, v => by simp [setConfigValue, List.lookup]
  | (k, w) :: rest, key, v => by
      by_cases hk : k = key
      · simp [setConfigValue, hk, List.lookup]
      · have hne : (key == k) = false := beq_eq_false_iff_ne.mpr (Ne.symm hk)
        simp [setConfigValue, hk, List.lookup, hne]
        exact lookup_setConfigValue_self rest key v

/-- The update `setConfigValue` leaves other keys unchanged. -/
theorem lookup_setConfigValue_other :
    ∀ (config : Config) (key k2 : String) (v : GoVal), k2 ≠ key →
      List.lookup k2 (setConfigValue config key v) = List.lookup k2 config
  | [], key, k2, v, hne => by
      have hb : (k2 == key) = false := beq_eq_false_iff_ne.mpr hne
      simp [setConfigValue, List.lookup, hb]
  | (k, w) :: rest, key, k2, v, hne => by
      by_cases hk : k = key
      · have hb : (k2 == key) = false := beq_eq_false_iff_ne.mpr hne
        have hb2 : (k2 == k) = false := by rw [hk]; exact hb
        simp [setConfigValue, hk, List.lookup, hb, hb2]
      · by_cases h2 : k2 = k
        · simp [setConfigValue, hk, List.lookup, h2]
        · have hb2 : (k2 == k) = false := beq_eq_false_iff_ne.mpr h2
          simp [setConfigValue, hk, List.lookup, hb2]
          exact lookup_setConfigValue_other rest key k2 v hne

/-- The update `setAuthCredentialOverrides` stores the username under
`vmuser.username`. -/
theorem lookup_setAuth_username (config : Config) (u p : String) :
    List.lookup ("vmuser.username") (setAuthCredentialOverrides config u p) =
      some (GoVal.str u) := by
  unfold setAuthCredentialOverrides
  rw [lookup_setConfigValue_other _ _ _ _ (by decide)]
  exact lookup_setConfigValue_self _ _ _

/-- The update `setAuthCredentialOverrides` stores the password under
`vmuser.password`. -/
theorem lookup_setAuth_password (config : Config) (u p : String) :
    List.lookup ("vmuser.password") (setAuthCredentialOverrides config u p) =
      some (GoVal.str p) :=
  lookup_setConfigValue_self _ _ _

/-- The `skipHelmUpgrade` decision is `some true` exactly when both chart
versions are non-empty and equal and the release status is deployed. -/
theorem skipUpgradeDecision_iff (chartURL : String) (rel : Release) :
    skipUpgradeDecision chartURL rel = some true ↔
      (getChartVersionFromURL chartURL ≠ "" ∧ releaseVersionOf rel ≠ "" ∧
        getChartVersionFromURL chartURL = releaseVersionOf rel ∧
        ∃ i, rel.info = some i ∧ i.status = statusDeployed) := by
  simp only [skipUpgradeDecision]
  by_cases hz : getChartVersionFromURL chartURL = "" ∨ releaseVersionOf rel = ""
  · rw [if_pos hz]
    constructor
    · intro h; exact absurd h (by simp)
    · rintro ⟨h1, h2, -, -⟩
      rcases hz with hz | hz
      · exact absurd hz h1
      · exact absurd hz h2
  · rw [if_neg hz]
    push_neg at hz
    by_cases he : getChartVersionFromURL chartURL = releaseVersionOf rel
    · rw [if_pos he]
      cases hi : rel.info with
      | none =>
          constructor
          · intro h; exact Option.noConfusion h
          · rintro ⟨-, -, -, i, hsome, -⟩
            exact Option.noConfusion hsome
      | some i =>
          constructor
          · intro h
            have hb : (i.status == statusDeployed) = true := Option.some.inj h
            exact ⟨hz.1, hz.2, he, i, rfl, by simpa using hb⟩
          · rintro ⟨-, -, -, j, hsome, hdep⟩
            have hij : i = j := Option.some.inj hsome
            subst hij
            simp [hdep]
    · rw [if_neg he]
      constructor
      · intro h; exact absurd h (by simp)
      · rintro ⟨-, -, heq, -⟩; exact absurd heq he

/-- Claim C9: for a reconcile task whose release exists, the helm upgrade is
skipped iff the chart version extracted from the chart URL and the recorded
release chart version are both non-empty and equal and the release status is
deployed; in the skip case the stored password is still fetched and the
`vmuser.username` / `vmuser.password` keys are written into the task
configuration before `Run` returns nil, with no helm upgrade performed. -/
theorem skip_upgrade_iff_versions_match_deployed (env : ActionEnv)
    (task : RmaTask) (archives : List (String × List Nat)) (config : Config)
    (releases : List Release) (rel : Release)
    (htyp : task.typ = OperationType.reconcile)
    (hcu : getConfigString config RmiChartURLConfig ≠ "")
    (hns : getConfigString config RmiNamespaceConfig ≠ "")
    (hcfg : env.helmActionConfig = Except.ok (some ()))
    (hhist : env.history = HistoryOutcome.ok releases)
    (hrel : findLatestRevision releases = some rel) :
    (skipUpgradeDecision (getConfigString config RmiChartURLConfig) rel =
        some true ↔
      (getChartVersionFromURL (getConfigString config RmiChartURLConfig) ≠ "" ∧
        releaseVersionOf rel ≠ "" ∧
        getChartVersionFromURL (getConfigString config RmiChartURLConfig) =
          releaseVersionOf rel ∧
        ∃ i, rel.info = some i ∧ i.status = statusDeployed)) ∧
      (∀ password,
        skipUpgradeDecision (getConfigString config RmiChartURLConfig) rel =
          some true →
        fetchPassword env = Except.ok password →
          runIntegrationAction env task archives config =
              { outcome := RunOutcome.ok, archives := archives,
                config := setAuthCredentialOverrides config
                  task.metadata.instanceID password,
                effects := [Effect.helmConfigGet, Effect.helmHistory,
                  Effect.deleteAvsBridge, Effect.secretGet] } ∧
            Effect.helmUpgrade ∉
              [Effect.helmConfigGet, Effect.helmHistory, Effect.deleteAvsBridge,
                Effect.secretGet] ∧
            List.lookup ("vmuser.username")
                (setAuthCredentialOverrides config task.metadata.instanceID
                  password) = some (GoVal.str task.metadata.instanceID) ∧
            List.lookup ("vmuser.password")
                (setAuthCredentialOverrides config task.metadata.instanceID
                  password) = some (GoVal.str password)) := by
  constructor
  · exact skipUpgradeDecision_iff (getConfigString config RmiChartURLConfig) rel
  · intro password hskip hpw
    refine ⟨?_, by decide, lookup_setAuth_username config _ password,
      lookup_setAuth_password config _ password⟩
    simp [runIntegrationAction, hcu, hns, hcfg, hhist, htyp, hrel, hskip,
      prependEffects, upgradeRma, hpw]

/-- Witness for C9: `sampleConfig` points at a chart of version 1.2.3 and
`sampleRelease` is a deployed release of that version: the run skips the
upgrade, fetches the stored password and writes the credentials. -/
theorem skip_upgrade_iff_versions_match_deployed_witness :
    runIntegrationAction sampleEnv sampleTask [] sampleConfig =
        { outcome := RunOutcome.ok, archives := [],
          config := setAuthCredentialOverrides sampleConfig ("instance-a")
            ("pw-123"),
          effects := [Effect.helmConfigGet, Effect.helmHistory,
            Effect.deleteAvsBridge, Effect.secretGet] } ∧
      List.lookup ("vmuser.username")
          (setAuthCredentialOverrides sampleConfig ("instance-a") ("pw-123")) =
        some (GoVal.str ("instance-a")) := by
  have h := (skip_upgrade_iff_versions_match_deployed sampleEnv sampleTask []
    sampleConfig [sampleRelease] sampleRelease rfl (by decide) (by decide) rfl
    rfl (by decide)).2 ("pw-123") (by decide) rfl
  exact ⟨h.1, h.2.2.1⟩

end Reconciler
